import Mathlib

/-!
Verification of the Dream Journal Analyzer against its specification.

The Python program is shallowly embedded: Python/JSON values are the
inductive `JSON`; a `Dream` (the spec's Entry) is a record of its three
fields; exceptions are `Except PyErr`; Python floats are modelled as
rationals; the external VADER scorer is an injected total function
`String → ℚ` wrapped in `Option` (`none` = scorer unavailable).  Each
definition translates the function of the source file named in its doc
comment.
-/

namespace DreamJournal

/-- Python values as produced by `json.load` (and passed around the program):
`null` is Python `None`, objects keep their fields in insertion order with
distinct keys. -/
inductive JSON where
  | null
  | bool (b : Bool)
  | num (q : ℚ)
  | str (s : String)
  | arr (items : List JSON)
  | obj (fields : List (String × JSON))

/-- Python exception classes raised by `dream.py` and caught in `journal.py`. -/
inductive PyErr where
  | typeError
  | keyError
  | valueError
deriving Repr, DecidableEq

/-- The Entry record (`dream.py`, class `Dream`): `text`, `date`, and the
optional numeric `mood_score` (`None` until scored).  The program only ever
stores `None` or a sentiment score in `mood_score`, so it is an `Option ℚ`. -/
structure Dream where
  text : String
  date : String
  mood_score : Option ℚ
deriving Repr, DecidableEq

/-- Python `str.strip()`: remove leading and trailing whitespace. -/
def pyStrip (s : String) : String :=
  String.mk (((s.data.dropWhile Char.isWhitespace).reverse.dropWhile Char.isWhitespace).reverse)

/-- `Dream.__init__` (dream.py lines 6-14): `ValueError` unless `text` and
`date` are truthy strings (`not text or not isinstance(text, str)` rejects
exactly the values that are not non-empty strings); the stored text is
`text.strip()`, the date is stored as given.  `mood_score` is not validated. -/
def dream_new (text date : JSON) (mood_score : Option ℚ) : Except PyErr Dream :=
  match text with
  | .str t =>
    if t = "" then .error .valueError
    else
      match date with
      | .str d =>
        if d = "" then .error .valueError
        else .ok { text := pyStrip t, date := d, mood_score := mood_score }
      | _ => .error .valueError
  | _ => .error .valueError

/-- `Dream.to_dict` (dream.py lines 26-32): the serialized record, with the
`mood_score` key always present (`null` when the score is `None`). -/
def Dream.to_dict (d : Dream) : JSON :=
  .obj [("text", .str d.text), ("date", .str d.date),
        ("mood_score", match d.mood_score with | none => .null | some q => .num q)]

/-- `Dream.from_dict` (dream.py lines 34-49): `TypeError` for a non-dict,
`KeyError` for a missing `text` or `date` key, then `Dream.__init__` (which
may raise `ValueError`).  `data.get("mood_score")` yields `None` when the key
is absent or `null`; a numeric value is kept (no other mood value occurs in a
file the program wrote). -/
def from_dict (data : JSON) : Except PyErr Dream :=
  match data with
  | .obj fields =>
    match fields.lookup "text" with
    | none => .error .keyError
    | some t =>
      match fields.lookup "date" with
      | none => .error .keyError
      | some d =>
        dream_new t d
          (match fields.lookup "mood_score" with
           | some (.num q) => some q
           | _ => none)
  | _ => .error .typeError

/-- The record loop of `DreamJournal.load_dreams` (journal.py lines 30-38 and
53-55), for a file whose contents parsed to a JSON list: each record is fed to
`Dream.from_dict`; a `KeyError` or `TypeError` is caught by the inner
`except (KeyError, TypeError)` and the record is skipped; a `ValueError`
(raised by `Dream.__init__` for empty or non-string text or date) is NOT
caught there, escapes the loop into the outer `except Exception` handler, and
`load_dreams` returns `[]`, dropping every record. -/
def load_go : List JSON → List Dream → List Dream
  | [], acc => acc
  | e :: rest, acc =>
    match from_dict e with
    | .ok d => load_go rest (acc ++ [d])
    | .error .keyError => load_go rest acc
    | .error .typeError => load_go rest acc
    | .error .valueError => []

/-- `DreamJournal.load_dreams` on a file holding a JSON list of records. -/
def load_dreams (data : List JSON) : List Dream :=
  load_go data []

/-- `DreamJournal.delete_dream` (journal.py lines 106-112) acting on the
journal's dream list.  The result is (the dream list after the call, the list
passed to `save_dreams` if it was called, the returned value): in range,
`pop(index)` removes position `index`, the shortened list is saved and the
popped dream returned; otherwise nothing changes, nothing is saved and `None`
is returned.  `index` is an `Int` since Python admits negative indices here
(the `0 <= index` guard rejects them). -/
def delete_dream (dreams : List Dream) (index : ℤ) :
    List Dream × Option (List Dream) × Option Dream :=
  if 0 ≤ index ∧ index < dreams.length then
    (dreams.eraseIdx index.toNat, some (dreams.eraseIdx index.toNat), dreams[index.toNat]?)
  else
    (dreams, none, none)

/-- `DreamAnalyzer._is_in_range_recursive` (analyzer.py lines 168-185).  Every
call site (the external calls and the recursive one) leaves `max_depth` at its
default 5, so the default is inlined. -/
def is_in_range_recursive (value min_val max_val : ℚ) (depth : ℕ) : Bool :=
  if 5 ≤ depth then decide (min_val ≤ value ∧ value < max_val)
  else if value < min_val then false
  else if max_val ≤ value then false
  else is_in_range_recursive value min_val max_val (depth + 1)
termination_by 5 - depth
decreasing_by omega

/-- `DreamAnalyzer._categorize_mood_recursive` (analyzer.py lines 136-166).
Every call site (the loop's `(score, 0)`, and the fallback recursive call,
which relies on the default) leaves `max_depth` at its default 10, so the
default is inlined.  The fallback call on line 166 is reached only when one of
the two `_is_in_range_recursive` checks returns false. -/
def categorize_mood_recursive (score : ℚ) (depth : ℕ) : ℕ :=
  if 10 ≤ depth then 2
  else if 1/2 ≤ score then 0
  else if 1/10 ≤ score then
    (if is_in_range_recursive score (1/10) (1/2) (depth + 1) then 1
     else categorize_mood_recursive score (depth + 1))
  else if -(1/10) ≤ score then 2
  else if -(1/2) ≤ score then
    (if is_in_range_recursive score (-(1/2)) (-(1/10)) (depth + 1) then 3
     else categorize_mood_recursive score (depth + 1))
  else 4
termination_by 10 - depth
decreasing_by all_goals omega

/-- The specification's direct bucket test: `>= 0.5` Very Positive (0),
`>= 0.1` Positive (1), `>= -0.1` Neutral (2), `>= -0.5` Negative (3), else
Very Negative (4).  Written from the spec's words, to be compared with
`categorize_mood_recursive`. -/
def categorize_mood_spec (score : ℚ) : ℕ :=
  if 1/2 ≤ score then 0
  else if 1/10 ≤ score then 1
  else if -(1/10) ≤ score then 2
  else if -(1/2) ≤ score then 3
  else 4

/-- One row of the 5x4 mood matrix: `[count, min, max, avg]`. -/
structure MoodRow where
  count : ℕ
  min : ℚ
  max : ℚ
  avg : ℚ
deriving Repr, DecidableEq

/-- Python `min` over a non-empty list (the `[]` case never occurs at a call). -/
def pyMin : List ℚ → ℚ
  | [] => 1
  | x :: xs => xs.foldl Min.min x

/-- Python `max` over a non-empty list (the `[]` case never occurs at a call). -/
def pyMax : List ℚ → ℚ
  | [] => -1
  | x :: xs => xs.foldl Max.max x

/-- The scores the first loop of `_create_mood_distribution_matrix` appends to
`category_scores[i]`, in input order: the scores whose category index is `i`. -/
def bucket_scores (mood_scores : List ℚ) (i : ℕ) : List ℚ :=
  mood_scores.filter (fun s => categorize_mood_recursive s 0 == i)

/-- Row `i` of the matrix after both loops of
`_create_mood_distribution_matrix` (analyzer.py lines 109-134): the row starts
as `[0, 1.0, -1.0, 0.0]`; the first loop makes `count` the number of scores in
bucket `i`; the second loop overwrites min/max/avg only when the bucket is
non-empty. -/
def mood_row (mood_scores : List ℚ) (i : ℕ) : MoodRow :=
  if (bucket_scores mood_scores i).isEmpty then ⟨0, 1, -1, 0⟩
  else
    ⟨(bucket_scores mood_scores i).length,
     pyMin (bucket_scores mood_scores i),
     pyMax (bucket_scores mood_scores i),
     (bucket_scores mood_scores i).sum / ((bucket_scores mood_scores i).length : ℚ)⟩

/-- `DreamAnalyzer._create_mood_distribution_matrix`: the 5 rows in order Very
Positive, Positive, Neutral, Negative, Very Negative. -/
def create_mood_distribution_matrix (mood_scores : List ℚ) : List MoodRow :=
  (List.range 5).map (mood_row mood_scores)

/-- The `stop_words` set of `DreamAnalyzer.analyze` (analyzer.py lines 47-62),
in source order. -/
def stop_words : List String :=
  ["the", "a", "an", "and", "or", "but", "in", "on", "at", "to", "for",
   "of", "with", "by", "from", "up", "about", "into", "through", "during",
   "before", "after", "above", "below", "between", "under", "again", "further",
   "then", "once", "here", "there", "when", "where", "why", "how", "all",
   "both", "each", "few", "more", "most", "other", "some", "such", "no",
   "nor", "not", "only", "own", "same", "so", "than", "too", "very", "s",
   "t", "can", "will", "just", "don", "should", "now", "was", "were",
   "been", "being", "have", "has", "had", "having", "do", "does", "did",
   "doing", "am", "is", "are", "be", "as", "i", "me", "my", "myself",
   "we", "our", "ours", "ourselves", "you", "your", "yours", "yourself",
   "yourselves", "he", "him", "his", "himself", "she", "her", "hers",
   "herself", "it", "its", "itself", "they", "them", "their", "theirs",
   "themselves", "what", "which", "who", "whom", "this", "that", "these",
   "those", "if", "because", "while", "out", "off", "over", "down"]

/-- The characters of the Python literal `'.,!?;:()[]{}""\''` passed to
`word.strip` on analyzer.py line 73 (the double quote appears twice there). -/
def strip_chars : List Char :=
  ['.', ',', '!', '?', ';', ':', '(', ')', '[', ']',
   '\x7b', '\x7d', '\x22', '\x22', '\x27']

/-- Python `str.strip(chars)`: remove the given characters from both ends. -/
def pyStripChars (s : String) (cs : List Char) : String :=
  String.mk (((s.data.dropWhile (· ∈ cs)).reverse.dropWhile (· ∈ cs)).reverse)

/-- Python `str.split()` with no argument: split on whitespace runs, no empty
pieces. -/
def py_split_ws (s : String) : List String :=
  (s.split Char.isWhitespace).filter (fun w => w ≠ "")

/-- Python `str.isalpha()`: non-empty and every character alphabetic. -/
def py_isalpha (w : String) : Bool :=
  !w.isEmpty && w.data.all Char.isAlpha

/-- The word filter of `DreamAnalyzer.analyze` (analyzer.py lines 71-76):
`dream.text.lower().split()`, keep `word` when `word.isalpha() and
len(word) > 2 and word.lower() not in stop_words`, then `word.strip(...)`. -/
def extract_words (text : String) : List String :=
  ((py_split_ws text.toLower).filter
      (fun w => py_isalpha w && decide (2 < w.length) && !stop_words.contains w.toLower)).map
    (fun w => pyStripChars w strip_chars)

/-- `all_words` accumulated over the dream loop of `analyze`: the surviving
tokens of every dream's text, concatenated in entry order. -/
def all_words (dreams : List Dream) : List String :=
  (dreams.map (fun d => extract_words d.text)).flatten

/-- Key order of `Counter(all_words)`: Python dicts keep insertion order, so
the Counter's keys are the distinct tokens in order of first appearance.
`seen` accumulates the tokens already emitted. -/
def first_seen : List String → List String → List String
  | [], _ => []
  | w :: ws, seen => if w ∈ seen then first_seen ws seen else w :: first_seen ws (w :: seen)

/-- One `(word, count)` item of `Counter(all_words)`, together with the
position `fi` of the word in the Counter's first-appearance key order. -/
structure ThemeItem where
  word : String
  cnt : ℕ
  fi : ℕ
deriving Repr, DecidableEq

/-- The order `Counter.most_common` sorts by, as a total order on the items:
larger count first; between equal counts, the earlier first appearance first
(CPython's `most_common` is documented as `sorted(..., key=count,
reverse=True)` with a stable sort over the insertion-ordered items, which is
exactly this order since the `fi` positions are distinct). -/
def theme_order (a b : ThemeItem) : Prop :=
  b.cnt < a.cnt ∨ (a.cnt = b.cnt ∧ a.fi ≤ b.fi)

instance : DecidableRel theme_order := fun a b => by
  unfold theme_order
  exact inferInstance

instance : IsTotal ThemeItem theme_order :=
  ⟨by intro a b; unfold theme_order; omega⟩

instance : IsTrans ThemeItem theme_order :=
  ⟨by intro a b c; unfold theme_order; omega⟩

/-- The items of `Counter(toks)` in key order, each with its count and its
position in that order. -/
def counter_items (toks : List String) : List ThemeItem :=
  (first_seen toks []).enum.map (fun p => ⟨p.2, toks.count p.2, p.1⟩)

/-- `Counter(toks).most_common(10)`: the items sorted by `theme_order`, first
ten. -/
def most_common10 (toks : List String) : List ThemeItem :=
  (List.insertionSort theme_order (counter_items toks)).take 10

/-- `top_themes` of `analyze` (analyzer.py lines 86-87): the words of
`most_common(10)`. -/
def top_themes (toks : List String) : List String :=
  (most_common10 toks).map ThemeItem.word

/-- Python `round(x, 3)` modelled on the rationals: round `x * 1000` half to
even, divide back. -/
def round_half_even (q : ℚ) : ℤ :=
  if q - ⌊q⌋ < 1/2 then ⌊q⌋
  else if 1/2 < q - ⌊q⌋ then ⌊q⌋ + 1
  else if ⌊q⌋ % 2 = 0 then ⌊q⌋ else ⌊q⌋ + 1

/-- Python `round(avg_score, 3)`. -/
def py_round3 (q : ℚ) : ℚ :=
  (round_half_even (q * 1000) : ℚ) / 1000

/-- The result of `DreamAnalyzer.analyze`: the two early-return message
strings, or the statistics dict `{"total_dreams", "average_mood",
"top_themes", "mood_matrix"}`. -/
inductive AnalyzeResult where
  | empty
  | unavailable
  | stats (total_dreams : ℕ) (average_mood : ℚ) (top : List String)
      (mood_matrix : List MoodRow)
deriving Repr, DecidableEq

/-- The `average_mood` field of a stats result. -/
def AnalyzeResult.averageMood : AnalyzeResult → Option ℚ
  | .stats _ a _ _ => some a
  | _ => none

/-- `DreamAnalyzer.analyze` (analyzer.py lines 35-97).  `sia` is the sentiment
scorer: `none` when `self.sia is None`, otherwise the total function
`text ↦ polarity_scores(text)["compound"]`.  The first component is the
returned value; the second is `self.journal.dreams` after the pass (each
dream's `mood_score` overwritten in the loop; this is also the list
`save_dreams` then persists).  On an early return the dreams are untouched. -/
def analyze (sia : Option (String → ℚ)) (dreams : List Dream) :
    AnalyzeResult × List Dream :=
  if dreams.isEmpty then (.empty, dreams)
  else
    match sia with
    | none => (.unavailable, dreams)
    | some polarity =>
      (.stats dreams.length
         (py_round3
           (if (dreams.map (fun d => polarity d.text)).isEmpty then 0
            else (dreams.map (fun d => polarity d.text)).sum /
              ((dreams.map (fun d => polarity d.text)).length : ℚ)))
         (top_themes (all_words dreams))
         (create_mood_distribution_matrix (dreams.map (fun d => polarity d.text))),
       dreams.map (fun d => { d with mood_score := some (polarity d.text) }))

end DreamJournal

namespace DreamJournal

/-- Helper: when `min_val ≤ value < max_val`, the recursive range check
returns true at every depth. -/
theorem is_in_range_of_bounds (value min_val max_val : ℚ) (depth : ℕ)
    (h1 : min_val ≤ value) (h2 : value < max_val) :
    is_in_range_recursive value min_val max_val depth = true := by
  unfold is_in_range_recursive
  by_cases hd : 5 ≤ depth
  · simp only [if_pos hd, decide_eq_true_eq]
    exact ⟨h1, h2⟩
  · rw [if_neg hd, if_neg (not_lt.mpr h1), if_neg (not_le.mpr h2)]
    exact is_in_range_of_bounds value min_val max_val (depth + 1) h1 h2
termination_by 5 - depth
decreasing_by omega

/-- Helper: the recursive categorization at depth 0 equals the spec's direct
threshold test. -/
theorem categorize_eq_spec (score : ℚ) :
    categorize_mood_recursive score 0 = categorize_mood_spec score := by
  unfold categorize_mood_recursive categorize_mood_spec
  rw [if_neg (by omega : ¬ (10:ℕ) ≤ 0)]
  by_cases h1 : (1:ℚ)/2 ≤ score
  · rw [if_pos h1, if_pos h1]
  · rw [if_neg h1, if_neg h1]
    by_cases h2 : (1:ℚ)/10 ≤ score
    · rw [if_pos h2, if_pos h2,
        if_pos (is_in_range_of_bounds score (1/10) (1/2) (0 + 1) h2 (not_le.mp h1))]
    · rw [if_neg h2, if_neg h2]
      by_cases h3 : -((1:ℚ)/10) ≤ score
      · rw [if_pos h3, if_pos h3]
      · rw [if_neg h3, if_neg h3]
        by_cases h4 : -((1:ℚ)/2) ≤ score
        · rw [if_pos h4, if_pos h4,
            if_pos (is_in_range_of_bounds score (-(1/2)) (-(1/10)) (0 + 1) h4 (not_le.mp h3))]
        · rw [if_neg h4, if_neg h4]

/-- Helper: the direct test always lands in one of the five buckets. -/
theorem categorize_spec_lt_5 (score : ℚ) : categorize_mood_spec score < 5 := by
  unfold categorize_mood_spec
  repeat' split
  all_goals omega

example : categorize_mood_recursive (6/10) 0 = 0 := by
  rw [categorize_eq_spec]; norm_num [categorize_mood_spec]
example : categorize_mood_recursive (3/10) 0 = 1 := by
  rw [categorize_eq_spec]; norm_num [categorize_mood_spec]
example : categorize_mood_recursive 0 0 = 2 := by
  rw [categorize_eq_spec]; norm_num [categorize_mood_spec]
example : categorize_mood_recursive (-(3/10)) 0 = 3 := by
  rw [categorize_eq_spec]; norm_num [categorize_mood_spec]
example : categorize_mood_recursive (-(7/10)) 0 = 4 := by
  rw [categorize_eq_spec]; norm_num [categorize_mood_spec]
example : categorize_mood_recursive (1/10) 0 = 1 := by
  rw [categorize_eq_spec]; norm_num [categorize_mood_spec]
example : categorize_mood_recursive (-(1/2)) 0 = 3 := by
  rw [categorize_eq_spec]; norm_num [categorize_mood_spec]

/-- Helper: the head of `dropWhile p l`, when present, fails `p`. -/
theorem head?_dropWhile_false {A : Type} (p : A → Bool) :
    ∀ (l : List A) (x : A), (l.dropWhile p).head? = some x → p x = false := by
  intro l
  induction l with
  | nil => intro x h; simp [List.dropWhile] at h
  | cons a l ih =>
    intro x h
    by_cases hp : p a
    · rw [List.dropWhile_cons_of_pos hp] at h
      exact ih x h
    · rw [List.dropWhile_cons_of_neg hp, List.head?_cons, Option.some.injEq] at h
      subst h
      exact Bool.eq_false_iff.mpr hp

/-- Helper: a list whose head (if any) fails `p` is untouched by `dropWhile`. -/
theorem dropWhile_eq_self_of_head? {A : Type} (p : A → Bool) (l : List A)
    (h : ∀ x, l.head? = some x → p x = false) : l.dropWhile p = l := by
  cases l with
  | nil => rfl
  | cons a l =>
    have ha := h a rfl
    exact List.dropWhile_cons_of_neg (by simp [ha])

/-- Helper: an element failing `p` survives `dropWhile p`. -/
theorem mem_dropWhile_of_false {A : Type} (p : A → Bool) :
    ∀ (l : List A) (c : A), c ∈ l → p c = false → c ∈ l.dropWhile p := by
  intro l
  induction l with
  | nil => intro c h; simp at h
  | cons a l ih =>
    intro c hc hpc
    by_cases hp : p a
    · rw [List.dropWhile_cons_of_pos hp]
      rcases List.mem_cons.mp hc with rfl | h
      · rw [hpc] at hp; simp at hp
      · exact ih c h hpc
    · rw [List.dropWhile_cons_of_neg hp]
      exact hc

/-- Helper: `getLast?` of `dropWhile p l` is `none` or `l.getLast?`. -/
theorem getLast?_dropWhile {A : Type} (p : A → Bool) :
    ∀ l : List A, (l.dropWhile p).getLast? = none ∨
      (l.dropWhile p).getLast? = l.getLast? := by
  intro l
  induction l with
  | nil => left; rfl
  | cons a l ih =>
    by_cases hp : p a
    · rw [List.dropWhile_cons_of_pos hp]
      rcases ih with h | h
      · left; exact h
      · cases l with
        | nil => left; simp at h; simp [h]
        | cons b l' => right; rw [h, List.getLast?_cons_cons]
    · rw [List.dropWhile_cons_of_neg hp]
      right
      rfl

/-- Helper: the stripped string has no leading or trailing whitespace, and is
non-empty as soon as one character of the input is not whitespace. -/
theorem pyStrip_spec (s : String) :
    (∀ c, (pyStrip s).data.head? = some c → c.isWhitespace = false) ∧
    (∀ c, (pyStrip s).data.getLast? = some c → c.isWhitespace = false) ∧
    ((∃ c ∈ s.data, c.isWhitespace = false) → pyStrip s ≠ "") := by
  refine ⟨?_, ?_, ?_⟩
  · intro c hc
    rw [show (pyStrip s).data =
        ((s.data.dropWhile Char.isWhitespace).reverse.dropWhile Char.isWhitespace).reverse
        from rfl] at hc
    rw [List.head?_reverse] at hc
    rcases getLast?_dropWhile Char.isWhitespace (s.data.dropWhile Char.isWhitespace).reverse
      with h | h
    · rw [h] at hc; cases hc
    · rw [h, List.getLast?_reverse] at hc
      exact head?_dropWhile_false Char.isWhitespace s.data c hc
  · intro c hc
    rw [show (pyStrip s).data =
        ((s.data.dropWhile Char.isWhitespace).reverse.dropWhile Char.isWhitespace).reverse
        from rfl] at hc
    rw [List.getLast?_reverse] at hc
    exact head?_dropWhile_false Char.isWhitespace _ c hc
  · rintro ⟨c, hc, hcw⟩ hemp
    have h1 : c ∈ s.data.dropWhile Char.isWhitespace :=
      mem_dropWhile_of_false Char.isWhitespace s.data c hc hcw
    have h2 : c ∈ (s.data.dropWhile Char.isWhitespace).reverse.dropWhile Char.isWhitespace :=
      mem_dropWhile_of_false Char.isWhitespace _ c (List.mem_reverse.mpr h1) hcw
    have h3 : c ∈ (pyStrip s).data := List.mem_reverse.mpr h2
    rw [hemp] at h3
    cases h3

/-- Helper: `strip` is idempotent. -/
theorem pyStrip_idem (s : String) : pyStrip (pyStrip s) = pyStrip s := by
  have h1 : (pyStrip s).data.dropWhile Char.isWhitespace = (pyStrip s).data :=
    dropWhile_eq_self_of_head? _ _ (fun x hx => (pyStrip_spec s).1 x hx)
  have h2 : ((pyStrip s).data).reverse.dropWhile Char.isWhitespace = ((pyStrip s).data).reverse := by
    refine dropWhile_eq_self_of_head? _ _ (fun x hx => ?_)
    rw [List.head?_reverse] at hx
    exact (pyStrip_spec s).2.1 x hx
  show String.mk _ = _
  rw [h1, h2, List.reverse_reverse]

/-- C3 counterexample: `Dream(" ", "2024-01-01")` succeeds — the truthiness
check sees the un-stripped one-space text — and stores the empty string as
`text`, so a successfully constructed Entry can have empty text. -/
theorem c3_whitespace_text_accepted :
    dream_new (.str " ") (.str "2024-01-01") none =
      .ok { text := "", date := "2024-01-01", mood_score := none } := by
  rfl

/-- C3 (amended): constructing an Entry whose text or date is not a non-empty
string always fails with ValueError, and a successfully constructed Entry's
text is the input text stripped of leading and trailing whitespace — non-empty
whenever the input text has any non-whitespace character (the un-amended claim
fails only for whitespace-only text, which is accepted and stripped to ""). -/
theorem c3_entry_validation (t d : JSON) (m : Option ℚ) :
    ((¬ ∃ s, t = JSON.str s ∧ s ≠ "") ∨ (¬ ∃ s, d = JSON.str s ∧ s ≠ "") →
      dream_new t d m = .error .valueError) ∧
    (∀ ts ds dm, t = JSON.str ts → d = JSON.str ds →
      dream_new t d m = .ok dm →
      dm.text = pyStrip ts ∧ dm.date = ds ∧ dm.mood_score = m ∧
      (∀ c, dm.text.data.head? = some c → c.isWhitespace = false) ∧
      (∀ c, dm.text.data.getLast? = some c → c.isWhitespace = false) ∧
      ((∃ c ∈ ts.data, c.isWhitespace = false) → dm.text ≠ "")) := by
  constructor
  · intro h
    cases t with
    | str ts =>
      by_cases hts : ts = ""
      · subst hts; rfl
      · rcases h with h | h
        · exact absurd ⟨ts, rfl, hts⟩ h
        · show (if ts = "" then _ else _) = _
          rw [if_neg hts]
          cases d with
          | str ds =>
            by_cases hds : ds = ""
            · subst hds; rfl
            · exact absurd ⟨ds, rfl, hds⟩ h
          | null => rfl
          | bool b => rfl
          | num q => rfl
          | arr items => rfl
          | obj fields => rfl
    | null => rfl
    | bool b => rfl
    | num q => rfl
    | arr items => rfl
    | obj fields => rfl
  · rintro ts ds dm rfl rfl h
    by_cases hts : ts = ""
    · rw [show dream_new (.str ts) (.str ds) m = if ts = "" then .error .valueError
        else if ds = "" then .error .valueError
        else .ok { text := pyStrip ts, date := ds, mood_score := m } from rfl,
        if_pos hts] at h
      cases h
    · rw [show dream_new (.str ts) (.str ds) m = if ts = "" then .error .valueError
        else if ds = "" then .error .valueError
        else .ok { text := pyStrip ts, date := ds, mood_score := m } from rfl,
        if_neg hts] at h
      by_cases hds : ds = ""
      · rw [if_pos hds] at h; cases h
      · rw [if_neg hds] at h
        have hdm : dm = { text := pyStrip ts, date := ds, mood_score := m } :=
          (Except.ok.inj h).symm
        subst hdm
        refine ⟨rfl, rfl, rfl, ?_, ?_, ?_⟩
        · exact (pyStrip_spec ts).1
        · exact (pyStrip_spec ts).2.1
        · exact (pyStrip_spec ts).2.2

/-- Helper: what a successful `dream_new` on two strings returns. -/
theorem dream_new_ok (t ds : String) (m : Option ℚ) (dm : Dream)
    (h : dream_new (.str t) (.str ds) m = .ok dm) :
    t ≠ "" ∧ ds ≠ "" ∧ dm = { text := pyStrip t, date := ds, mood_score := m } := by
  by_cases hts : t = ""
  · rw [show dream_new (.str t) (.str ds) m = if t = "" then .error .valueError
      else if ds = "" then .error .valueError
      else .ok { text := pyStrip t, date := ds, mood_score := m } from rfl,
      if_pos hts] at h
    cases h
  · rw [show dream_new (.str t) (.str ds) m = if t = "" then .error .valueError
      else if ds = "" then .error .valueError
      else .ok { text := pyStrip t, date := ds, mood_score := m } from rfl,
      if_neg hts] at h
    by_cases hds : ds = ""
    · rw [if_pos hds] at h; cases h
    · rw [if_neg hds] at h
      exact ⟨hts, hds, (Except.ok.inj h).symm⟩

/-- C7 counterexample: `Dream(" ", "2024-01-01")` constructs successfully (so
it is a "successfully constructed Entry") with text `""`; serializing it and
deserializing the record raises ValueError instead of returning an equal
Entry, so the round trip fails for it. -/
theorem c7_roundtrip_fails_on_empty_text :
    dream_new (.str " ") (.str "2024-01-01") none =
      .ok { text := "", date := "2024-01-01", mood_score := none } ∧
    from_dict (Dream.to_dict { text := "", date := "2024-01-01", mood_score := none }) =
      .error .valueError := by
  exact ⟨rfl, rfl⟩

/-- C7 (amended): for every successfully constructed Entry whose text is
non-empty, `from_dict (to_dict e)` returns an Entry equal to `e` field by
field, including when the optional score is absent; the un-amended claim fails
only for constructed entries whose text stripped to the empty string. -/
theorem c7_to_dict_from_dict_roundtrip (t ds : String) (m : Option ℚ) (dm : Dream)
    (h : dream_new (.str t) (.str ds) m = .ok dm) (h2 : dm.text ≠ "") :
    from_dict dm.to_dict = .ok dm := by
  obtain ⟨hts, hds, hdm⟩ := dream_new_ok t ds m dm h
  subst hdm
  have h2' : pyStrip t ≠ "" := h2
  rcases m with _ | q
  · show dream_new (.str (pyStrip t)) (.str ds) none = _
    rw [show dream_new (.str (pyStrip t)) (.str ds) none =
        if pyStrip t = "" then .error .valueError
        else if ds = "" then .error .valueError
        else .ok { text := pyStrip (pyStrip t), date := ds, mood_score := none } from rfl,
      if_neg h2', if_neg hds, pyStrip_idem]
  · show dream_new (.str (pyStrip t)) (.str ds) (some q) = _
    rw [show dream_new (.str (pyStrip t)) (.str ds) (some q) =
        if pyStrip t = "" then .error .valueError
        else if ds = "" then .error .valueError
        else .ok { text := pyStrip (pyStrip t), date := ds, mood_score := some q } from rfl,
      if_neg h2', if_neg hds, pyStrip_idem]

/-- C7 witness: the round trip at a concrete Entry with absent score. -/
theorem c7_roundtrip_witness :
    from_dict (Dream.to_dict { text := "hello", date := "2024-01-01", mood_score := none }) =
      .ok { text := "hello", date := "2024-01-01", mood_score := none } :=
  c7_to_dict_from_dict_roundtrip "hello" "2024-01-01" none
    { text := "hello", date := "2024-01-01", mood_score := none } rfl (by decide)

/-- Record of a valid journal entry, used to exhibit the load_dreams bug. -/
def good_record : JSON :=
  .obj [("text", .str "flying over mountains"), ("date", .str "2024-01-01")]

/-- Record whose text is empty: `Dream.from_dict` raises ValueError on it. -/
def bad_record : JSON :=
  .obj [("text", .str ""), ("date", .str "2024-01-02")]

/-- C1: exhibit of the code bug.  A file holding one valid record followed by
one record with empty text does not load to the one valid Entry: the
ValueError raised by `Dream.__init__` inside `Dream.from_dict` is not among
the exceptions the record loop catches (`except (KeyError, TypeError)`), so it
aborts the loop, lands in the outer `except Exception` handler of
`load_dreams`, and the whole load returns `[]` — the bad record is fatal and
drops the valid records, contradicting the claim. -/
theorem c1_bad_record_is_fatal :
    from_dict good_record =
      .ok { text := "flying over mountains", date := "2024-01-01", mood_score := none } ∧
    from_dict bad_record = .error .valueError ∧
    load_dreams [good_record, bad_record] = [] := by
  exact ⟨rfl, rfl, rfl⟩

/-- C9: deleting at a valid index `0 ≤ i < length` removes exactly the entry
at position `i` (the list becomes `take i ++ drop (i+1)`, one entry shorter),
the shortened list is persisted, and the removed entry is returned; for any
out-of-range index, negative included, the list is unchanged, nothing is
persisted, and the "not found" indicator `none` is returned. -/
theorem c9_delete_dream_spec (dreams : List Dream) (index : ℤ) :
    (0 ≤ index → index < dreams.length →
      (delete_dream dreams index).1 =
          dreams.take index.toNat ++ dreams.drop (index.toNat + 1) ∧
      (delete_dream dreams index).1.length + 1 = dreams.length ∧
      (delete_dream dreams index).2.1 = some ((delete_dream dreams index).1) ∧
      (delete_dream dreams index).2.2 = dreams[index.toNat]? ∧
      (dreams[index.toNat]?).isSome = true) ∧
    (index < 0 ∨ (dreams.length : ℤ) ≤ index →
      delete_dream dreams index = (dreams, none, none)) := by
  constructor
  · intro h1 h2
    have hn : index.toNat < dreams.length := by omega
    rw [show delete_dream dreams index =
        if 0 ≤ index ∧ index < dreams.length then
          (dreams.eraseIdx index.toNat, some (dreams.eraseIdx index.toNat),
            dreams[index.toNat]?)
        else (dreams, none, none) from rfl, if_pos ⟨h1, h2⟩]
    refine ⟨List.eraseIdx_eq_take_drop_succ dreams index.toNat, ?_, rfl, rfl, ?_⟩
    · rw [List.eraseIdx_eq_take_drop_succ]
      rw [List.length_append, List.length_take, List.length_drop]
      omega
    · rw [List.getElem?_eq_getElem hn]
      rfl
  · intro h
    rw [show delete_dream dreams index =
        if 0 ≤ index ∧ index < dreams.length then
          (dreams.eraseIdx index.toNat, some (dreams.eraseIdx index.toNat),
            dreams[index.toNat]?)
        else (dreams, none, none) from rfl, if_neg]
    rintro ⟨ha, hb⟩
    rcases h with h | h
    · omega
    · omega

/-- Helper: a non-empty list is not `isEmpty`. -/
theorem isEmpty_false_of_ne_nil {A : Type} (l : List A) (h : l ≠ []) :
    l.isEmpty = false := by
  cases l with
  | nil => exact absurd rfl h
  | cons a l => rfl

/-- C4: `analyze` returns the Empty indicator iff the entry list is empty,
returns the Unavailable indicator iff the list is non-empty and the scorer is
unavailable, and otherwise returns a statistics result; being a total Lean
function of the entry texts, it raises nothing on any entry text string. -/
theorem c4_analyze_outcomes (sia : Option (String → ℚ)) (dreams : List Dream) :
    ((analyze sia dreams).1 = .empty ↔ dreams = []) ∧
    ((analyze sia dreams).1 = .unavailable ↔ (dreams ≠ [] ∧ sia = none)) ∧
    ((∃ n a th mm, (analyze sia dreams).1 = .stats n a th mm) ↔
      (dreams ≠ [] ∧ sia ≠ none)) := by
  by_cases hd : dreams.isEmpty
  · have hdl : dreams = [] := by
      cases dreams with
      | nil => rfl
      | cons a l => cases hd
    subst hdl
    refine ⟨by simp [analyze], by simp [analyze], by simp [analyze]⟩
  · have hdl : dreams ≠ [] := by
      intro hh
      subst hh
      exact hd rfl
    have hd' : dreams.isEmpty = false := isEmpty_false_of_ne_nil dreams hdl
    cases sia with
    | none =>
      refine ⟨by simp [analyze, hd', hdl], by simp [analyze, hd', hdl], ?_⟩
      simp only [analyze, hd']
      constructor
      · rintro ⟨n, a, th, mm, hcon⟩
        cases hcon
      · rintro ⟨-, hno⟩
        exact absurd rfl hno
    | some f =>
      refine ⟨by simp [analyze, hd', hdl], by simp [analyze, hd', hdl], ?_⟩
      simp only [analyze, hd']
      constructor
      · intro
        exact ⟨hdl, by simp⟩
      · intro
        exact ⟨_, _, _, _, rfl⟩

/-- C10: a successful analyze pass (non-empty list, scorer available) rewrites
each entry's `mood_score` to the scorer's value for its text and changes
nothing else: the output list is the pointwise mood_score update of the input
list, so the entry count, the order, and every entry's text and date are
identical before and after. -/
theorem c10_analyze_mutates_only_mood (f : String → ℚ) (dreams : List Dream)
    (h : dreams ≠ []) :
    (analyze (some f) dreams).2 =
        dreams.map (fun d => { d with mood_score := some (f d.text) }) ∧
    ((analyze (some f) dreams).2).map (fun d => (d.text, d.date)) =
        dreams.map (fun d => (d.text, d.date)) ∧
    ((analyze (some f) dreams).2).length = dreams.length := by
  have hd : dreams.isEmpty = false := isEmpty_false_of_ne_nil dreams h
  have h1 : (analyze (some f) dreams).2 =
      dreams.map (fun d => { d with mood_score := some (f d.text) }) := by
    simp [analyze, hd]
  refine ⟨h1, ?_, ?_⟩
  · rw [h1, List.map_map]
    rfl
  · rw [h1, List.length_map]

/-- C10 witness: one concrete entry, scored 1; only the mood changes. -/
theorem c10_analyze_witness :
    (analyze (some (fun _ => (1:ℚ)))
        [{ text := "abc", date := "2024-01-01", mood_score := none }]).2 =
      [{ text := "abc", date := "2024-01-01", mood_score := some 1 }] := by
  have hw := (c10_analyze_mutates_only_mood (fun _ => (1:ℚ))
    [{ text := "abc", date := "2024-01-01", mood_score := none }]
    (List.cons_ne_nil _ _)).1
  rw [hw]
  rfl

/-- C8: for every non-empty entry list and available scorer, the
`average_mood` field of the statistics equals the arithmetic mean of the
per-entry scores, rounded to 3 decimal places. -/
theorem c8_average_mood (f : String → ℚ) (dreams : List Dream) (h : dreams ≠ []) :
    ((analyze (some f) dreams).1).averageMood =
      some (py_round3 ((dreams.map (fun d => f d.text)).sum / (dreams.length : ℚ))) := by
  have hd : dreams.isEmpty = false := isEmpty_false_of_ne_nil dreams h
  have hm : (dreams.map (fun d => f d.text)).isEmpty = false :=
    isEmpty_false_of_ne_nil _ (by
      intro hh
      exact h (List.map_eq_nil_iff.mp hh))
  simp [analyze, hd, hm, AnalyzeResult.averageMood]

/-- Scorer used in the C8 witness: the spec's example scores. -/
def example_scorer : String → ℚ :=
  fun t => if t = "one" then 8/10 else if t = "two" then -(2/10) else 0

/-- Entries used in the C8 witness. -/
def example_dreams : List Dream :=
  [{ text := "one", date := "2024-01-01", mood_score := none },
   { text := "two", date := "2024-01-02", mood_score := none },
   { text := "three", date := "2024-01-03", mood_score := none }]

/-- C8 witness: scores 0.8, -0.2, 0.0 average to 0.200 exactly as the spec's
example states. -/
theorem c8_average_mood_witness :
    ((analyze (some example_scorer) example_dreams).1).averageMood = some (1/5) := by
  rw [c8_average_mood example_scorer example_dreams (List.cons_ne_nil _ _)]
  have hmean : ((example_dreams.map (fun d => example_scorer d.text)).sum /
      (example_dreams.length : ℚ)) = 1/5 := by
    simp only [example_dreams, example_scorer, List.map_cons, List.map_nil,
      List.sum_cons, List.sum_nil, List.length_cons, List.length_nil]
    rw [if_neg (show ¬("two":String) = "one" by decide),
        if_neg (show ¬("three":String) = "one" by decide),
        if_neg (show ¬("three":String) = "two" by decide)]
    norm_num
  rw [hmean]
  norm_num [py_round3, round_half_even]

/-- Helper: recursive form of the five-bucket bound. -/
theorem categorize_lt_5 (score : ℚ) : categorize_mood_recursive score 0 < 5 := by
  rw [categorize_eq_spec]
  exact categorize_spec_lt_5 score

/-- Helper: a left fold of `min` is a member of, and a lower bound for, the
seed-and-list. -/
theorem foldl_min_spec (xs : List ℚ) : ∀ x : ℚ,
    xs.foldl Min.min x ∈ x :: xs ∧ ∀ y ∈ x :: xs, xs.foldl Min.min x ≤ y := by
  induction xs with
  | nil =>
    intro x
    refine ⟨List.mem_cons_self x [], ?_⟩
    intro y hy
    rcases List.mem_cons.mp hy with rfl | hy
    · exact le_refl y
    · cases hy
  | cons a l ih =>
    intro x
    rw [List.foldl_cons]
    constructor
    · rcases List.mem_cons.mp (ih (Min.min x a)).1 with hm | hm
      · rcases min_choice x a with hxa | hxa
        · rw [hm, hxa]; exact List.mem_cons_self x (a :: l)
        · rw [hm, hxa]; exact List.mem_cons_of_mem x (List.mem_cons_self a l)
      · exact List.mem_cons_of_mem x (List.mem_cons_of_mem a hm)
    · intro y hy
      rcases List.mem_cons.mp hy with hy1 | hy1
      · rw [hy1]
        exact le_trans ((ih (Min.min x a)).2 _ (List.mem_cons_self _ l)) (min_le_left x a)
      · rcases List.mem_cons.mp hy1 with hy2 | hy2
        · rw [hy2]
          exact le_trans ((ih (Min.min x a)).2 _ (List.mem_cons_self _ l)) (min_le_right x a)
        · exact (ih (Min.min x a)).2 y (List.mem_cons_of_mem _ hy2)

/-- Helper: a left fold of `max` is a member of, and an upper bound for, the
seed-and-list. -/
theorem foldl_max_spec (xs : List ℚ) : ∀ x : ℚ,
    xs.foldl Max.max x ∈ x :: xs ∧ ∀ y ∈ x :: xs, y ≤ xs.foldl Max.max x := by
  induction xs with
  | nil =>
    intro x
    refine ⟨List.mem_cons_self x [], ?_⟩
    intro y hy
    rcases List.mem_cons.mp hy with rfl | hy
    · exact le_refl y
    · cases hy
  | cons a l ih =>
    intro x
    rw [List.foldl_cons]
    constructor
    · rcases List.mem_cons.mp (ih (Max.max x a)).1 with hm | hm
      · rcases max_choice x a with hxa | hxa
        · rw [hm, hxa]; exact List.mem_cons_self x (a :: l)
        · rw [hm, hxa]; exact List.mem_cons_of_mem x (List.mem_cons_self a l)
      · exact List.mem_cons_of_mem x (List.mem_cons_of_mem a hm)
    · intro y hy
      rcases List.mem_cons.mp hy with hy1 | hy1
      · rw [hy1]
        exact le_trans (le_max_left x a) ((ih (Max.max x a)).2 _ (List.mem_cons_self _ l))
      · rcases List.mem_cons.mp hy1 with hy2 | hy2
        · rw [hy2]
          exact le_trans (le_max_right x a) ((ih (Max.max x a)).2 _ (List.mem_cons_self _ l))
        · exact (ih (Max.max x a)).2 y (List.mem_cons_of_mem _ hy2)

/-- Helper: `pyMin` of a non-empty list is its least member. -/
theorem pyMin_spec (l : List ℚ) (h : l ≠ []) :
    pyMin l ∈ l ∧ ∀ y ∈ l, pyMin l ≤ y := by
  cases l with
  | nil => exact absurd rfl h
  | cons x xs => exact foldl_min_spec xs x

/-- Helper: `pyMax` of a non-empty list is its greatest member. -/
theorem pyMax_spec (l : List ℚ) (h : l ≠ []) :
    pyMax l ∈ l ∧ ∀ y ∈ l, y ≤ pyMax l := by
  cases l with
  | nil => exact absurd rfl h
  | cons x xs => exact foldl_max_spec xs x

/-- Helper: row `i` of the matrix, for `i < 5`. -/
theorem matrix_getD (mood_scores : List ℚ) (i : ℕ) (h : i < 5) :
    (create_mood_distribution_matrix mood_scores).getD i ⟨0, 1, -1, 0⟩ =
      mood_row mood_scores i := by
  interval_cases i <;> rfl

/-- Helper: the count column of row `i` is the bucket's size. -/
theorem mood_row_count (scores : List ℚ) (i : ℕ) :
    (mood_row scores i).count = (bucket_scores scores i).length := by
  unfold mood_row
  by_cases hb : (bucket_scores scores i).isEmpty
  · rw [if_pos hb]
    cases hbs : bucket_scores scores i with
    | nil => rfl
    | cons a t => rw [hbs] at hb; cases hb
  · rw [if_neg hb]

/-- Helper: the five bucket sizes partition the score list. -/
theorem bucket_counts_sum (mood_scores : List ℚ) :
    ((List.range 5).map (fun i => (bucket_scores mood_scores i).length)).sum =
      mood_scores.length := by
  induction mood_scores with
  | nil => rfl
  | cons s l ih =>
    have h5 : categorize_mood_recursive s 0 < 5 := categorize_lt_5 s
    simp only [show List.range 5 = [0, 1, 2, 3, 4] from rfl, List.map_cons, List.map_nil,
      List.sum_cons, List.sum_nil, bucket_scores, List.filter_cons] at ih ⊢
    generalize hc : categorize_mood_recursive s 0 = c at h5 ⊢
    interval_cases c <;> simp <;> omega

/-- C5: every score is classified into exactly one of the five buckets by the
recursive categorizer; the count column of the matrix sums to the number of
scores; a non-empty bucket's row carries the bucket's size, its least member,
its greatest member and their arithmetic mean; an empty bucket's row stays at
count 0, min 1.0, max -1.0, average 0. -/
theorem c5_mood_matrix (scores : List ℚ) :
    (∀ s ∈ scores, categorize_mood_recursive s 0 < 5 ∧
      ∀ i, i < 5 → (s ∈ bucket_scores scores i ↔ categorize_mood_recursive s 0 = i)) ∧
    ((create_mood_distribution_matrix scores).map MoodRow.count).sum = scores.length ∧
    (∀ i, i < 5 →
      ((create_mood_distribution_matrix scores).getD i ⟨0, 1, -1, 0⟩).count =
        (bucket_scores scores i).length ∧
      (bucket_scores scores i = [] →
        (create_mood_distribution_matrix scores).getD i ⟨0, 1, -1, 0⟩ = ⟨0, 1, -1, 0⟩) ∧
      (bucket_scores scores i ≠ [] →
        ((create_mood_distribution_matrix scores).getD i ⟨0, 1, -1, 0⟩).min ∈
            bucket_scores scores i ∧
        (∀ x ∈ bucket_scores scores i,
          ((create_mood_distribution_matrix scores).getD i ⟨0, 1, -1, 0⟩).min ≤ x) ∧
        ((create_mood_distribution_matrix scores).getD i ⟨0, 1, -1, 0⟩).max ∈
            bucket_scores scores i ∧
        (∀ x ∈ bucket_scores scores i,
          x ≤ ((create_mood_distribution_matrix scores).getD i ⟨0, 1, -1, 0⟩).max) ∧
        ((create_mood_distribution_matrix scores).getD i ⟨0, 1, -1, 0⟩).avg =
          (bucket_scores scores i).sum / ((bucket_scores scores i).length : ℚ))) := by
  refine ⟨?_, ?_, ?_⟩
  · intro s hs
    refine ⟨categorize_lt_5 s, ?_⟩
    intro i hi
    constructor
    · intro hmem
      have := (List.mem_filter.mp hmem).2
      exact Nat.beq_eq ▸ (by exact of_decide_eq_true (by simpa [bucket_scores] using this))
    · intro hcat
      refine List.mem_filter.mpr ⟨hs, ?_⟩
      simp [hcat]
  · rw [show create_mood_distribution_matrix scores =
      (List.range 5).map (mood_row scores) from rfl, List.map_map]
    rw [List.map_congr_left (fun i _ => by
      show (MoodRow.count ∘ mood_row scores) i = (bucket_scores scores i).length
      exact mood_row_count scores i)]
    exact bucket_counts_sum scores
  · intro i hi
    rw [matrix_getD scores i hi]
    refine ⟨mood_row_count scores i, ?_, ?_⟩
    · intro hbe
      unfold mood_row
      rw [hbe]
      rfl
    · intro hne
      have hb : (bucket_scores scores i).isEmpty = false :=
        isEmpty_false_of_ne_nil _ hne
      unfold mood_row
      rw [if_neg (by rw [hb]; exact Bool.false_ne_true)]
      exact ⟨(pyMin_spec _ hne).1, (pyMin_spec _ hne).2,
        (pyMax_spec _ hne).1, (pyMax_spec _ hne).2, rfl⟩

/-- Helper: the unfolding equation of `first_seen` on a cons. -/
theorem first_seen_cons (t : String) (ts seen : List String) :
    first_seen (t :: ts) seen =
      if t ∈ seen then first_seen ts seen else t :: first_seen ts (t :: seen) := rfl

/-- Helper: membership in `first_seen`: the words seen in the stream and not
already in `seen`. -/
theorem mem_first_seen : ∀ (ws seen : List String) (w : String),
    w ∈ first_seen ws seen ↔ (w ∈ ws ∧ w ∉ seen) := by
  intro ws
  induction ws with
  | nil => intro seen w; simp [first_seen]
  | cons t ts ih =>
    intro seen w
    by_cases ht : t ∈ seen
    · rw [first_seen_cons, if_pos ht, ih]
      constructor
      · rintro ⟨h1, h2⟩
        exact ⟨List.mem_cons_of_mem t h1, h2⟩
      · rintro ⟨h1, h2⟩
        rcases List.mem_cons.mp h1 with rfl | h1
        · exact absurd ht h2
        · exact ⟨h1, h2⟩
    · rw [first_seen_cons, if_neg ht]
      constructor
      · intro h
        rcases List.mem_cons.mp h with rfl | h
        · exact ⟨List.mem_cons_self w ts, ht⟩
        · obtain ⟨h1, h2⟩ := (ih (t :: seen) w).mp h
          refine ⟨List.mem_cons_of_mem t h1, ?_⟩
          intro hsw
          exact h2 (List.mem_cons_of_mem t hsw)
      · rintro ⟨h1, h2⟩
        rcases List.mem_cons.mp h1 with rfl | h1
        · exact List.mem_cons_self w _
        · by_cases hwt : w = t
          · subst hwt
            exact List.mem_cons_self w _
          · refine List.mem_cons_of_mem t ((ih (t :: seen) w).mpr ⟨h1, ?_⟩)
            intro hmem
            rcases List.mem_cons.mp hmem with h3 | h3
            · exact hwt h3
            · exact h2 h3

/-- Helper: `first_seen` never repeats a word. -/
theorem first_seen_nodup : ∀ (ws seen : List String), (first_seen ws seen).Nodup := by
  intro ws
  induction ws with
  | nil => intro seen; exact List.nodup_nil
  | cons t ts ih =>
    intro seen
    by_cases ht : t ∈ seen
    · rw [first_seen_cons, if_pos ht]
      exact ih seen
    · rw [first_seen_cons, if_neg ht]
      refine List.nodup_cons.mpr ⟨?_, ih (t :: seen)⟩
      intro hmem
      exact ((mem_first_seen ts (t :: seen) t).mp hmem).2 (List.mem_cons_self t seen)

/-- Helper: each Counter item records its word, the word's count in the token
stream and the word's position in the first-appearance order. -/
theorem counter_items_spec (toks : List String) (it : ThemeItem)
    (h : it ∈ counter_items toks) :
    it.word ∈ first_seen toks [] ∧
    it.cnt = toks.count it.word ∧
    it.fi = (first_seen toks []).indexOf it.word := by
  obtain ⟨p, hp, hpe⟩ := List.mem_map.mp h
  obtain ⟨i, w⟩ := p
  have hg : (first_seen toks [])[i]? = some w :=
    List.mk_mem_enum_iff_getElem?.mp hp
  obtain ⟨hlt, hget⟩ := List.getElem?_eq_some_iff.mp hg
  subst hpe
  refine ⟨?_, rfl, ?_⟩
  · show w ∈ _
    rw [← hget]
    exact List.getElem_mem hlt
  · show i = _
    rw [← hget]
    exact (List.indexOf_getElem (first_seen_nodup toks []) i hlt).symm

/-- Helper: the items' words are exactly the first-appearance key list. -/
theorem counter_items_map_word (toks : List String) :
    (counter_items toks).map ThemeItem.word = first_seen toks [] := by
  unfold counter_items
  rw [List.map_map]
  show List.map Prod.snd (List.enumFrom 0 (first_seen toks [])) = _
  exact List.enumFrom_map_snd 0 _

/-- Helper: the items' first-appearance positions are pairwise distinct. -/
theorem counter_items_map_fi_nodup (toks : List String) :
    ((counter_items toks).map ThemeItem.fi).Nodup := by
  unfold counter_items
  rw [List.map_map]
  show (List.map Prod.fst ((first_seen toks []).enum)).Nodup
  exact List.nodup_enum_map_fst _

/-- Helper: every key of the Counter yields an item of `counter_items`. -/
theorem mem_counter_items (toks : List String) (w : String)
    (h : w ∈ first_seen toks []) :
    (⟨w, toks.count w, (first_seen toks []).indexOf w⟩ : ThemeItem) ∈
      counter_items toks := by
  unfold counter_items
  refine List.mem_map.mpr ⟨((first_seen toks []).indexOf w, w), ?_, rfl⟩
  rw [List.mk_mem_enum_iff_getElem?]
  rw [List.getElem?_eq_getElem (List.indexOf_lt_length.mpr h)]
  rw [List.getElem_indexOf]

/-- Strict version of the most_common order: count strictly larger, or equal
counts and strictly earlier first appearance. -/
def theme_lt (a b : ThemeItem) : Prop :=
  b.cnt < a.cnt ∨ (a.cnt = b.cnt ∧ a.fi < b.fi)

/-- Helper: the sorted item list is strictly ordered by `theme_lt` (the
positions `fi` are distinct, so the total preorder is strict on it). -/
theorem sorted_items_pairwise (toks : List String) :
    (List.insertionSort theme_order (counter_items toks)).Pairwise theme_lt := by
  have hs : (List.insertionSort theme_order (counter_items toks)).Pairwise theme_order :=
    List.sorted_insertionSort theme_order (counter_items toks)
  have hperm : List.Perm (List.insertionSort theme_order (counter_items toks))
      (counter_items toks) :=
    List.perm_insertionSort theme_order (counter_items toks)
  have hfi : ((List.insertionSort theme_order (counter_items toks)).map ThemeItem.fi).Nodup :=
    ((hperm.map ThemeItem.fi).nodup_iff).mpr (counter_items_map_fi_nodup toks)
  have hfi' : (List.insertionSort theme_order (counter_items toks)).Pairwise
      (fun a b => ThemeItem.fi a ≠ ThemeItem.fi b) := List.pairwise_map.mp hfi
  refine (hs.and hfi').imp ?_
  intro a b hab
  obtain ⟨h1, h2⟩ := hab
  unfold theme_order at h1
  unfold theme_lt
  omega

/-- Helper: the sorted item list is a permutation of the Counter items. -/
theorem sorted_items_perm (toks : List String) :
    List.Perm (List.insertionSort theme_order (counter_items toks)) (counter_items toks) :=
  List.perm_insertionSort theme_order (counter_items toks)

/-- Helper: `dropWhile` is the identity when every element fails `p`. -/
theorem dropWhile_eq_self_of_all {A : Type} (p : A → Bool) (l : List A)
    (h : ∀ c ∈ l, p c = false) : l.dropWhile p = l := by
  cases l with
  | nil => rfl
  | cons a t =>
    exact List.dropWhile_cons_of_neg (by
      rw [h a (List.mem_cons_self a t)]
      exact Bool.false_ne_true)

/-- Helper: alphabetic characters are not in the punctuation strip set. -/
theorem alpha_not_strip_char (c : Char) (hc : c.isAlpha = true) : c ∉ strip_chars := by
  intro hmem
  unfold strip_chars at hmem
  fin_cases hmem <;> exact absurd hc (by decide)

/-- Helper: stripping punctuation from an all-alphabetic word is the identity,
so the tokens `analyze` accumulates are exactly the filtered words. -/
theorem pyStripChars_alpha (w : String) (hw : w.data.all Char.isAlpha = true) :
    pyStripChars w strip_chars = w := by
  have hchar : ∀ c ∈ w.data, (decide (c ∈ strip_chars)) = false := by
    intro c hc
    rw [decide_eq_false_iff_not]
    exact alpha_not_strip_char c (List.all_eq_true.mp hw c hc)
  unfold pyStripChars
  rw [dropWhile_eq_self_of_all _ _ hchar,
    dropWhile_eq_self_of_all _ _ (fun c hc => hchar c (List.mem_reverse.mp hc)),
    List.reverse_reverse]

/-- Helper: every extracted token is a non-empty all-alphabetic word longer
than two characters whose lower-casing is not a stop word. -/
theorem extract_words_shape (text : String) (w : String) (h : w ∈ extract_words text) :
    py_isalpha w = true ∧ 2 < w.length ∧ stop_words.contains w.toLower = false := by
  unfold extract_words at h
  obtain ⟨v, hv, hmap⟩ := List.mem_map.mp h
  obtain ⟨hmem, hfil⟩ := List.mem_filter.mp hv
  rw [Bool.and_eq_true, Bool.and_eq_true] at hfil
  obtain ⟨⟨h1, h2⟩, h3⟩ := hfil
  have hid : pyStripChars v strip_chars = v := by
    refine pyStripChars_alpha v ?_
    rw [py_isalpha, Bool.and_eq_true] at h1
    exact h1.2
  rw [← hmap, hid]
  refine ⟨h1, of_decide_eq_true h2, ?_⟩
  rw [Bool.not_eq_true'] at h3
  exact h3

/-- Helper: shape of every token of the concatenated stream. -/
theorem all_words_shape (dreams : List Dream) (w : String) (h : w ∈ all_words dreams) :
    py_isalpha w = true ∧ 2 < w.length ∧ stop_words.contains w.toLower = false := by
  unfold all_words at h
  obtain ⟨l, hl, hw⟩ := List.mem_flatten.mp h
  obtain ⟨d, hd, hld⟩ := List.mem_map.mp hl
  exact extract_words_shape d.text w (by rw [← hld] at hw; exact hw)

/-- Helper: full characterization of `top_themes` over any token stream: at
most ten distinct keys, ordered by count descending with ties in
first-appearance order, and dominating every key left out. -/
theorem top_themes_characterization (toks : List String) :
    (top_themes toks).length = min 10 (first_seen toks []).length ∧
    (top_themes toks).Nodup ∧
    (∀ w ∈ top_themes toks, w ∈ first_seen toks []) ∧
    (top_themes toks).Pairwise (fun a b =>
      toks.count b < toks.count a ∨
      (toks.count a = toks.count b ∧
        (first_seen toks []).indexOf a < (first_seen toks []).indexOf b)) ∧
    (∀ w ∈ first_seen toks [], w ∉ top_themes toks →
      ∀ v ∈ top_themes toks,
        toks.count w < toks.count v ∨
        (toks.count w = toks.count v ∧
          (first_seen toks []).indexOf v < (first_seen toks []).indexOf w)) := by
  have hperm := sorted_items_perm toks
  have hpair := sorted_items_pairwise toks
  have htt : top_themes toks =
      ((List.insertionSort theme_order (counter_items toks)).take 10).map
        ThemeItem.word := rfl
  have hmemS : ∀ it, it ∈ (List.insertionSort theme_order (counter_items toks)).take 10 →
      it ∈ counter_items toks := by
    intro it hit
    exact hperm.mem_iff.mp (List.mem_of_mem_take hit)
  refine ⟨?_, ?_, ?_, ?_, ?_⟩
  · rw [htt, List.length_map, List.length_take]
    congr 1
    rw [← counter_items_map_word toks, List.length_map]
    exact hperm.length_eq
  · rw [htt, List.map_take]
    refine List.Nodup.sublist (List.take_sublist _ _) ?_
    rw [(hperm.map ThemeItem.word).nodup_iff, counter_items_map_word]
    exact first_seen_nodup toks []
  · intro w hw
    rw [htt] at hw
    obtain ⟨it, hit, rfl⟩ := List.mem_map.mp hw
    exact (counter_items_spec toks it (hmemS it hit)).1
  · rw [htt, List.pairwise_map]
    refine List.Pairwise.imp_of_mem ?_ (hpair.sublist (List.take_sublist _ _))
    intro a b ha hb hab
    obtain ⟨hau, hac, haf⟩ := counter_items_spec toks a (hmemS a ha)
    obtain ⟨hbu, hbc, hbf⟩ := counter_items_spec toks b (hmemS b hb)
    rw [← hac, ← hbc, ← haf, ← hbf]
    unfold theme_lt at hab
    exact hab
  · intro w hw hnot v hv
    have hiwS : (⟨w, toks.count w, (first_seen toks []).indexOf w⟩ : ThemeItem) ∈
        List.insertionSort theme_order (counter_items toks) :=
      hperm.mem_iff.mpr (mem_counter_items toks w hw)
    have hsplit := List.take_append_drop 10
      (List.insertionSort theme_order (counter_items toks))
    have hcross : ∀ a ∈ (List.insertionSort theme_order (counter_items toks)).take 10,
        ∀ b ∈ (List.insertionSort theme_order (counter_items toks)).drop 10,
          theme_lt a b := by
      have hP : ((List.insertionSort theme_order (counter_items toks)).take 10 ++
          (List.insertionSort theme_order (counter_items toks)).drop 10).Pairwise
            theme_lt := by
        rw [hsplit]
        exact hpair
      exact (List.pairwise_append.mp hP).2.2
    have hiw_drop : (⟨w, toks.count w, (first_seen toks []).indexOf w⟩ : ThemeItem) ∈
        (List.insertionSort theme_order (counter_items toks)).drop 10 := by
      rcases List.mem_append.mp (by rw [hsplit]; exact hiwS) with hin | hin
      · exfalso
        refine hnot ?_
        rw [htt]
        exact List.mem_map.mpr ⟨_, hin, rfl⟩
      · exact hin
    rw [htt] at hv
    obtain ⟨av, hav, havw⟩ := List.mem_map.mp hv
    have hlt := hcross av hav _ hiw_drop
    obtain ⟨havu, hac, haf⟩ := counter_items_spec toks av (hmemS av hav)
    rw [← havw, ← hac, ← haf]
    unfold theme_lt at hlt
    rcases hlt with h | ⟨h1, h2⟩
    · exact Or.inl h
    · exact Or.inr ⟨h1.symm, h2⟩

/-- C6: `top_themes` over the concatenation of all entries' tokens is the
sequence of at most 10 distinct surviving tokens (all-alphabetic, longer than
2 characters, not stop words — the tokens of the lower-cased text stream) with
the highest frequency, most frequent first; ties between equal frequencies are
broken by order of first appearance in the concatenated stream (smaller
first-appearance index first), and every surviving token left out has lower
priority than each listed one under that same order. -/
theorem c6_top_themes_spec (dreams : List Dream) :
    (top_themes (all_words dreams)).length =
        min 10 (first_seen (all_words dreams) []).length ∧
    (top_themes (all_words dreams)).Nodup ∧
    (∀ w, w ∈ first_seen (all_words dreams) [] ↔ w ∈ all_words dreams) ∧
    (∀ w ∈ top_themes (all_words dreams),
      w ∈ all_words dreams ∧ py_isalpha w = true ∧ 2 < w.length ∧
        stop_words.contains w.toLower = false) ∧
    (top_themes (all_words dreams)).Pairwise (fun a b =>
      (all_words dreams).count b < (all_words dreams).count a ∨
      ((all_words dreams).count a = (all_words dreams).count b ∧
        (first_seen (all_words dreams) []).indexOf a <
          (first_seen (all_words dreams) []).indexOf b)) ∧
    (∀ w ∈ all_words dreams, w ∉ top_themes (all_words dreams) →
      ∀ v ∈ top_themes (all_words dreams),
        (all_words dreams).count w < (all_words dreams).count v ∨
        ((all_words dreams).count w = (all_words dreams).count v ∧
          (first_seen (all_words dreams) []).indexOf v <
            (first_seen (all_words dreams) []).indexOf w)) := by
  obtain ⟨h1, h2, h3, h4, h5⟩ := top_themes_characterization (all_words dreams)
  refine ⟨h1, h2, ?_, ?_, h4, ?_⟩
  · intro w
    rw [mem_first_seen]
    simp
  · intro w hw
    have hw' : w ∈ all_words dreams := ((mem_first_seen _ _ _).mp (h3 w hw)).1
    obtain ⟨ha, hb, hc⟩ := all_words_shape dreams w hw'
    exact ⟨hw', ha, hb, hc⟩
  · intro w hw hnot v hv
    exact h5 w ((mem_first_seen _ _ _).mpr ⟨hw, by simp⟩) hnot v hv

/-- C2: for every score, the depth-limited recursive categorization started at
depth 0 (`_categorize_mood_recursive` with helper `_is_in_range_recursive`)
returns the same bucket index as the direct range test: score ≥ 0.5 gives 0
(Very Positive), else ≥ 0.1 gives 1, else ≥ -0.1 gives 2, else ≥ -0.5 gives 3,
else 4; in particular it terminates (both functions are total), and the proof
shows the value always comes from a threshold branch — the range checks
succeed, so the fallback recursion and the depth-limit default are never the
source of the returned value. -/
theorem c2_categorize_recursive_eq_direct (score : ℚ) :
    categorize_mood_recursive score 0 = categorize_mood_spec score :=
  categorize_eq_spec score

example : top_themes ["ocean", "flying", "ocean", "flying", "storm"] =
    ["ocean", "flying", "storm"] := by decide

example : pyStrip "  flying  " = "flying" := rfl

end DreamJournal